import Mathlib

/-!
# Verification of the `ipwatch` history-backed novelty check and append-only log

This file is a shallow embedding of the two Python source files of the
`ipwatch` repository (`ipwatch.py`, the main tool, and `app.py`, the legacy
variant) together with proofs of the specification claims about them.

Modelling conventions:
* The log file is modelled as `Option (List String)`: `none` means the file
  does not exist, `some lines` is its content as the list of CSV records the
  `csv` reader would yield (the header line included as the first element).
* The `csv` module with `delimiter="\t"` and the default `excel` dialect is
  modelled faithfully: `encodeField` quotes a field that contains a tab, a
  double quote, or a line break (doubling embedded quotes), exactly as
  `csv.writer` with `QUOTE_MINIMAL` does, and `parseRow` is the state machine
  of `csv.reader` restricted to one record (states `START_FIELD`, `IN_FIELD`,
  `IN_QUOTED_FIELD`, `QUOTE_IN_QUOTED_FIELD`).
* Fallible I/O is modelled by explicit parameters: `openErr : Option String`
  is `some e` when opening the log for reading raises an exception with
  message `e`; the network fetch is an `Except FetchError RawData`.
* All code is total, so "never raises an uncaught exception" is by
  construction; the remaining observable behaviour (file contents, displayed
  record, diagnostic messages, exit code) is an explicit `RunResult`.
-/

namespace IPWatch

/-- The parser states of Python's `csv` reader. -/
inductive PState
  | SF  -- START_FIELD
  | IF  -- IN_FIELD
  | QF  -- IN_QUOTED_FIELD
  | QQ  -- QUOTE_IN_QUOTED_FIELD
deriving DecidableEq, Repr

/-- One step of the `csv` reader over the characters of a single record,
with tab as delimiter and a double quote as quote character (non-strict
mode, `QUOTE_MINIMAL`). `acc` is the current field, reversed. -/
def prAux : PState → List Char → List Char → List (List Char)
  | _, [], acc => [acc.reverse]
  | .SF, c :: rest, acc =>
    if c = '"' then prAux .QF rest acc
    else if c = '\t' then acc.reverse :: prAux .SF rest []
    else prAux .IF rest (c :: acc)
  | .IF, c :: rest, acc =>
    if c = '\t' then acc.reverse :: prAux .SF rest []
    else prAux .IF rest (c :: acc)
  | .QF, c :: rest, acc =>
    if c = '"' then prAux .QQ rest acc
    else prAux .QF rest (c :: acc)
  | .QQ, c :: rest, acc =>
    if c = '"' then prAux .QF rest ('"' :: acc)
    else if c = '\t' then acc.reverse :: prAux .SF rest []
    else prAux .IF rest (c :: acc)

/-- Parse one CSV record (one physical record of the log file) into its
fields, as `csv.reader(..., delimiter="\t")` does.  A blank record yields
no fields, as in Python. -/
def parseRow (s : String) : List String :=
  if s.data = [] then [] else (prAux .SF s.data []).map (fun cs => String.mk cs)

/-- Double every embedded quote character, as `csv.writer` does inside a
quoted field. -/
def dq : List Char → List Char
  | [] => []
  | c :: r => if c = '"' then '"' :: '"' :: dq r else c :: dq r

/-- `csv.writer` with `QUOTE_MINIMAL` quotes a field iff it contains the
delimiter, the quote character, or a line-break character. -/
def needsQuoteL (f : List Char) : Bool :=
  f.any (fun c => c = '\t' || c = '"' || c = '\n' || c = '\r')

/-- Encode one field as `csv.writer(..., delimiter="\t")` writes it. -/
def encFieldL (f : List Char) : List Char :=
  if needsQuoteL f then '"' :: (dq f ++ ['"']) else f

/-- Encode a row: encoded fields joined by tabs. -/
def encodeRowL : List (List Char) → List Char
  | [] => []
  | [f] => encFieldL f
  | f :: g :: rest => encFieldL f ++ '\t' :: encodeRowL (g :: rest)

/-- String-level version of `encodeRowL`: the record `csv.writer.writerow`
appends to the file for the given fields. -/
def encodeRow (fs : List String) : String :=
  String.mk (encodeRowL (fs.map String.data))

/-- A row joined by raw tabs with no quoting (how a row of plain fields
looks inside the file). -/
def rawRowL : List (List Char) → List Char
  | [] => []
  | [f] => f
  | f :: g :: rest => f ++ '\t' :: rawRowL (g :: rest)

/-- String-level version of `rawRowL`. -/
def rawRow (fs : List String) : String :=
  String.mk (rawRowL (fs.map String.data))

/-- `IPRecord` from `ipwatch.py`: the unit of persistence and comparison. -/
structure IPRecord where
  timestamp : String
  ip : String
  isp : String
  comment : String
deriving DecidableEq, Repr

/-- The fields of a record in the order `csv.writer.writerow` receives them
in `CSVDataStorage.save`. -/
def recordFields (r : IPRecord) : List String :=
  [r.timestamp, r.ip, r.isp, r.comment]

/-- The raw JSON dictionary returned by `IPAPIProvider.fetch_data`, reduced
to the two keys the formatter reads (`query` and `isp`); `none` models an
absent key. -/
structure RawData where
  query : Option String
  isp : Option String
deriving DecidableEq, Repr

/-- The exceptions `IPInfoService.run` catches: `urllib.error.URLError`,
`json.JSONDecodeError`, and any other `Exception`. -/
inductive FetchError
  | network (msg : String)
  | parse (msg : String)
  | other (msg : String)
deriving DecidableEq, Repr

/-- Whether the error is one of the two fetch-specific exception classes
(`URLError` / `JSONDecodeError`). -/
def FetchError.isNetworkOrParse : FetchError → Bool
  | .network _ => true
  | .parse _ => true
  | .other _ => false

/-- The diagnostic each `except` clause of `IPInfoService.run` prints to
`sys.stderr`. -/
def errorMessage : FetchError → String
  | .network e => "Network error: unable to reach IP provider (" ++ e ++ ")"
  | .parse e => "Invalid response from IP provider: " ++ e
  | .other e => "Unexpected error: " ++ e

/-- `IPDataFormatter.format` from `ipwatch.py`: builds the record from the
raw data, the current wall-clock time `now` (the `strftime` result, a
parameter here), and the comment.  `data.get("query", "N/A")`,
`data.get("isp", "N/A")`, and `comment or "N/A"` (Python's `or` replaces an
empty string). -/
def IPDataFormatter.format (data : RawData) (now : String) (comment : String) : IPRecord :=
  { timestamp := now
    ip := data.query.getD "N/A"
    isp := data.isp.getD "N/A"
    comment := if comment = "" then "N/A" else comment }

/-- The header row written by `CSVDataStorage._ensure_file_exists` in
`ipwatch.py`. -/
def headerRow : List String := ["Timestamp", "IP Address", "ISP", "Comment"]

/-- The header record as it stands in the file. -/
def headerLine : String := encodeRow headerRow

/-- `CSVDataStorage._ensure_file_exists` from `ipwatch.py`: if the file does
not exist, create it with the header row; otherwise leave it alone.  The
result is the file content after the call. -/
def ensure_file_exists : Option (List String) → List String
  | none => [headerLine]
  | some ls => ls

/-- `CSVDataStorage.read_all_rows` from `ipwatch.py`.  Returns the parsed
rows together with the diagnostics printed to `sys.stderr`.  If the file
does not exist the result is empty; if opening it raises (modelled by
`openErr = some e`) the rows read so far (none) are returned and the error
is printed; otherwise the header is skipped (`next(reader, None)`) and every
row with at least four fields is kept. -/
def read_all_rows : Option (List String) → Option String → List (List String) × List String
  | none, _ => ([], [])
  | some _, some e => ([], ["Error reading file: " ++ e])
  | some lines, none =>
    (((lines.drop 1).map parseRow).filter (fun row => 4 ≤ row.length), [])

/-- The `IPRecord(row[0], row[1], row[2], row[3])` construction in
`CSVDataStorage.find_records_by_ip` (total rendering via `getD`; the rows it
is applied to always have at least four fields). -/
def rowToRecord (row : List String) : IPRecord :=
  { timestamp := row.getD 0 ""
    ip := row.getD 1 ""
    isp := row.getD 2 ""
    comment := row.getD 3 "" }

/-- `CSVDataStorage.find_records_by_ip` from `ipwatch.py`: the records built
from the rows whose second column equals `ip`, in file order. -/
def find_records_by_ip (file : Option (List String)) (openErr : Option String)
    (ip : String) : List IPRecord :=
  (((read_all_rows file openErr).1.filter (fun row => row.getD 1 "" = ip)).map rowToRecord)

/-- `CSVDataStorage.save` from `ipwatch.py`: append one encoded row to the
file (opened with mode `"a"`). -/
def save (lines : List String) (r : IPRecord) : List String :=
  lines ++ [encodeRow (recordFields r)]

/-- Iterated `save`, for the round-trip property. -/
def saveAll (lines : List String) (recs : List IPRecord) : List String :=
  recs.foldl save lines

/-- The history as a sequence of records: the rows `read_all_rows` yields,
viewed through the `IPRecord` constructor. -/
def recordsOf (file : Option (List String)) (openErr : Option String) : List IPRecord :=
  (read_all_rows file openErr).1.map rowToRecord

/-- The observable outcome of one `IPInfoService.run` call: the boolean it
returns, the file content afterwards, the record handed to
`presenter.display` (if any), the match list handed to
`presenter.display_match_found` (if any), and the error diagnostics printed
by the `except` clauses or the storage read. -/
structure RunResult where
  isNew : Bool
  file : List String
  displayed : Option IPRecord
  matchList : Option (List IPRecord)
  errMsgs : List String
deriving DecidableEq, Repr

/-- `IPInfoService.run` from `ipwatch.py`.  On a successful fetch: format
the record, read the history, test membership of the current ip in
`{row[1] for row in all_rows}`, display, show matches or the no-match
notice, then save unconditionally and return `not has_match`.  On a caught
exception: print the diagnostic and return `False`. -/
def IPInfoService.run : Except FetchError RawData → String → String → List String →
    Option String → RunResult
  | .error e, _, _, lines, _ =>
    { isNew := false, file := lines, displayed := none, matchList := none
      errMsgs := [errorMessage e] }
  | .ok data, now, comment, lines, openErr =>
    let record := IPDataFormatter.format data now comment
    let all_rows := (read_all_rows (some lines) openErr).1
    let existing_ips := all_rows.map (fun row => row.getD 1 "")
    let has_match : Bool := decide (record.ip ∈ existing_ips)
    { isNew := !has_match
      file := save lines record
      displayed := some record
      matchList :=
        if has_match then some (find_records_by_ip (some lines) openErr record.ip)
        else none
      errMsgs := (read_all_rows (some lines) openErr).2 }

/-- The exit code `main` passes to `sys.exit`: `0 if is_new else 1`. -/
def exitCode (isNew : Bool) : Nat := if isNew then 0 else 1

/-- `main` from `ipwatch.py` (given the parsed `--comment` argument): the
`CSVDataStorage` constructor ensures the file exists, then the service runs
and the exit code is derived from its boolean result. -/
def main_run (fetch : Except FetchError RawData) (now comment : String)
    (file : Option (List String)) (openErr : Option String) : Nat × RunResult :=
  let lines := ensure_file_exists file
  let r := IPInfoService.run fetch now comment lines openErr
  (exitCode r.isNew, r)

/-- `os.path.join` (with the separator of the non-Windows platforms the
fallback path serves). -/
def joinPath (a b : String) : String := a ++ "/" ++ b

/-- `get_documents_path` from `ipwatch.py`: on Windows, the registry value
`Shell Folders\Personal` when the lookup succeeds (`registry = some d`);
on a registry failure, and on every other platform, `home ++ "/Documents"`.
No existence check is performed and no directory is created. -/
def get_documents_path (system : String) (registry : Option String)
    (home : String) : String :=
  if system = "Windows" then
    match registry with
    | some d => d
    | none => joinPath home "Documents"
  else joinPath home "Documents"

/-- Modelled from the spec: the three-stage fallback chain the spec ascribes
to `resolve_path` (src contains no such chain): the platform's registered
Documents directory if it exists, else `home/Documents` if that exists, else
a dotted per-user fallback directory under the home directory (modelled as
`home/.ipwatch`), created on demand. -/
def resolve_path_spec (registeredDocs : Option String) (dirExists : String → Bool)
    (home : String) : String :=
  match registeredDocs with
  | some d =>
    if dirExists d then d
    else if dirExists (joinPath home "Documents") then joinPath home "Documents"
    else joinPath home ".ipwatch"
  | none =>
    if dirExists (joinPath home "Documents") then joinPath home "Documents"
    else joinPath home ".ipwatch"

end IPWatch

namespace IPWatchApp

/-- The header row written by `CSVDataStorage._ensure_file_exists` in
`app.py` (the legacy variant): three columns, ISP before IP Address. -/
def headerRowApp : List String := ["Timestamp", "ISP", "IP Address"]

/-- `CSVDataStorage._ensure_file_exists` from `app.py`: create the file with
its three-column header if absent, otherwise leave it alone. -/
def ensure_file_exists : Option (List String) → List String
  | none => [IPWatch.encodeRow headerRowApp]
  | some ls => ls

end IPWatchApp

namespace IPWatch

/-! ## Parser lemmas -/

theorem prAux_nil (st : PState) (acc : List Char) : prAux st [] acc = [acc.reverse] := by
  cases st <;> rfl

theorem prAux_SF_cons (c : Char) (rest acc : List Char) :
    prAux .SF (c :: rest) acc =
      if c = '"' then prAux .QF rest acc
      else if c = '\t' then acc.reverse :: prAux .SF rest []
      else prAux .IF rest (c :: acc) := rfl

theorem prAux_IF_cons (c : Char) (rest acc : List Char) :
    prAux .IF (c :: rest) acc =
      if c = '\t' then acc.reverse :: prAux .SF rest []
      else prAux .IF rest (c :: acc) := rfl

theorem prAux_QF_cons (c : Char) (rest acc : List Char) :
    prAux .QF (c :: rest) acc =
      if c = '"' then prAux .QQ rest acc
      else prAux .QF rest (c :: acc) := rfl

theorem prAux_QQ_cons (c : Char) (rest acc : List Char) :
    prAux .QQ (c :: rest) acc =
      if c = '"' then prAux .QF rest ('"' :: acc)
      else if c = '\t' then acc.reverse :: prAux .SF rest []
      else prAux .IF rest (c :: acc) := rfl

theorem dq_cons (c : Char) (r : List Char) :
    dq (c :: r) = if c = '"' then '"' :: '"' :: dq r else c :: dq r := rfl

theorem prAux_IF_append (f : List Char) (h : ∀ c ∈ f, c ≠ '\t') (rest acc : List Char) :
    prAux .IF (f ++ rest) acc = prAux .IF rest (f.reverse ++ acc) := by
  induction f generalizing acc with
  | nil => simp
  | cons c f ih =>
    have hc : c ≠ '\t' := h c (by simp)
    rw [List.cons_append, prAux_IF_cons, if_neg hc, ih (fun x hx => h x (by simp [hx]))]
    simp

theorem prAux_QF_append (f : List Char) (rest acc : List Char) :
    prAux .QF (dq f ++ rest) acc = prAux .QF rest (f.reverse ++ acc) := by
  induction f generalizing acc with
  | nil => simp [dq]
  | cons c f ih =>
    by_cases hc : c = '"'
    · subst hc
      rw [dq_cons, if_pos rfl, List.cons_append, List.cons_append, prAux_QF_cons,
        if_pos rfl, prAux_QQ_cons, if_pos rfl, ih]
      simp
    · rw [dq_cons, if_neg hc, List.cons_append, prAux_QF_cons, if_neg hc, ih]
      simp

theorem prAux_SF_plain_tab (f : List Char) (h : ∀ c ∈ f, c ≠ '\t' ∧ c ≠ '"')
    (rest : List Char) :
    prAux .SF (f ++ '\t' :: rest) [] = f :: prAux .SF rest [] := by
  cases f with
  | nil =>
    rw [List.nil_append, prAux_SF_cons, if_neg (by decide), if_pos rfl]
    rfl
  | cons c f =>
    obtain ⟨hct, hcq⟩ := h c (by simp)
    rw [List.cons_append, prAux_SF_cons, if_neg hcq, if_neg hct,
      prAux_IF_append f (fun x hx => (h x (by simp [hx])).1),
      prAux_IF_cons, if_pos rfl]
    simp

theorem prAux_SF_plain_end (f : List Char) (h : ∀ c ∈ f, c ≠ '\t' ∧ c ≠ '"') :
    prAux .SF f [] = [f] := by
  cases f with
  | nil => rw [prAux_nil]; rfl
  | cons c f =>
    obtain ⟨hct, hcq⟩ := h c (by simp)
    have h2 := prAux_IF_append f (fun x hx => (h x (by simp [hx])).1) [] [c]
    rw [List.append_nil] at h2
    rw [prAux_SF_cons, if_neg hcq, if_neg hct, h2, prAux_nil]
    simp

theorem prAux_SF_quoted_tab (f rest : List Char) :
    prAux .SF (('"' :: (dq f ++ ['"'])) ++ '\t' :: rest) [] = f :: prAux .SF rest [] := by
  rw [List.cons_append, prAux_SF_cons, if_pos rfl, List.append_assoc,
    List.singleton_append, prAux_QF_append, prAux_QF_cons, if_pos rfl,
    prAux_QQ_cons, if_neg (by decide), if_pos rfl]
  simp

theorem prAux_SF_quoted_end (f : List Char) :
    prAux .SF ('"' :: (dq f ++ ['"'])) [] = [f] := by
  rw [prAux_SF_cons, if_pos rfl, prAux_QF_append, prAux_QF_cons, if_pos rfl, prAux_nil]
  simp

theorem okPlain_of_not_needsQuote (f : List Char) (h : needsQuoteL f = false) :
    ∀ c ∈ f, c ≠ '\t' ∧ c ≠ '"' := by
  intro c hc
  rw [needsQuoteL, List.any_eq_false] at h
  have h3 := h c hc
  simp only [Bool.or_eq_true, decide_eq_true_eq, not_or] at h3
  tauto

theorem prAux_SF_enc_tab (f rest : List Char) :
    prAux .SF (encFieldL f ++ '\t' :: rest) [] = f :: prAux .SF rest [] := by
  by_cases hq : needsQuoteL f = true
  · simp only [encFieldL, if_pos hq]
    exact prAux_SF_quoted_tab f rest
  · simp only [encFieldL, if_neg hq]
    exact prAux_SF_plain_tab f (okPlain_of_not_needsQuote f (by simpa using hq)) rest

theorem prAux_SF_enc_end (f : List Char) :
    prAux .SF (encFieldL f) [] = [f] := by
  by_cases hq : needsQuoteL f = true
  · simp only [encFieldL, if_pos hq]
    exact prAux_SF_quoted_end f
  · simp only [encFieldL, if_neg hq]
    exact prAux_SF_plain_end f (okPlain_of_not_needsQuote f (by simpa using hq))

theorem prAux_encodeRowL (fs : List (List Char)) (h : fs ≠ []) :
    prAux .SF (encodeRowL fs) [] = fs := by
  induction fs with
  | nil => exact absurd rfl h
  | cons f fs ih =>
    cases fs with
    | nil => simpa [encodeRowL] using prAux_SF_enc_end f
    | cons g rest =>
      simp only [encodeRowL]
      rw [prAux_SF_enc_tab]
      rw [ih (by simp)]

theorem prAux_rawRowL (fs : List (List Char)) (h : fs ≠ [])
    (hok : ∀ f ∈ fs, ∀ c ∈ f, c ≠ '\t' ∧ c ≠ '"') :
    prAux .SF (rawRowL fs) [] = fs := by
  induction fs with
  | nil => exact absurd rfl h
  | cons f fs ih =>
    cases fs with
    | nil => simpa [rawRowL] using prAux_SF_plain_end f (hok f (by simp))
    | cons g rest =>
      simp only [rawRowL]
      rw [prAux_SF_plain_tab f (hok f (by simp))]
      rw [ih (by simp) (fun x hx => hok x (by simp [hx]))]

theorem map_mk_map_data (fs : List String) :
    (fs.map String.data).map (fun cs => String.mk cs) = fs := by
  rw [List.map_map]
  have h : ((fun cs => String.mk cs) ∘ String.data) = (id : String → String) :=
    funext fun s => rfl
  rw [h, List.map_id]

theorem encodeRowL_ne_nil (f g : List Char) (rest : List (List Char)) :
    encodeRowL (f :: g :: rest) ≠ [] := by
  simp [encodeRowL]

theorem rawRowL_ne_nil (f g : List Char) (rest : List (List Char)) :
    rawRowL (f :: g :: rest) ≠ [] := by
  simp [rawRowL]

/-- The `csv` round trip: parsing a record written by the writer recovers
exactly the fields that were written (for any row of at least two fields —
every row the program writes has four). -/
theorem parseRow_encodeRow (fs : List String) (h : 2 ≤ fs.length) :
    parseRow (encodeRow fs) = fs := by
  match fs, h with
  | f :: g :: rest, _ =>
    have hne : (encodeRow (f :: g :: rest)).data ≠ [] :=
      encodeRowL_ne_nil f.data g.data (rest.map String.data)
    simp only [parseRow, if_neg hne]
    have h2 : (encodeRow (f :: g :: rest)).data
        = encodeRowL ((f :: g :: rest).map String.data) := rfl
    rw [h2, prAux_encodeRowL _ (by simp), map_mk_map_data]

/-- Parsing a raw tab-joined row of plain fields (no tab, no quote in any
field) recovers the fields. -/
theorem parseRow_rawRow (fs : List String) (h : 2 ≤ fs.length)
    (hok : ∀ f ∈ fs, ∀ c ∈ f.data, c ≠ '\t' ∧ c ≠ '"') :
    parseRow (rawRow fs) = fs := by
  match fs, h with
  | f :: g :: rest, _ =>
    have hne : (rawRow (f :: g :: rest)).data ≠ [] :=
      rawRowL_ne_nil f.data g.data (rest.map String.data)
    simp only [parseRow, if_neg hne]
    have h2 : (rawRow (f :: g :: rest)).data
        = rawRowL ((f :: g :: rest).map String.data) := rfl
    have hok2 : ∀ l ∈ (f :: g :: rest).map String.data, ∀ c ∈ l, c ≠ '\t' ∧ c ≠ '"' := by
      intro l hl
      rw [List.mem_map] at hl
      obtain ⟨s, hs, rfl⟩ := hl
      exact hok s hs
    rw [h2, prAux_rawRowL _ (by simp) hok2, map_mk_map_data]

/-! ## Storage and orchestrator lemmas -/

theorem rowToRecord_recordFields (r : IPRecord) : rowToRecord (recordFields r) = r := by
  cases r
  rfl

theorem parseRow_recordFields (r : IPRecord) :
    parseRow (encodeRow (recordFields r)) = recordFields r :=
  parseRow_encodeRow (recordFields r) (by simp [recordFields])

theorem saveAll_eq (recs : List IPRecord) (lines : List String) :
    saveAll lines recs = lines ++ recs.map (fun r => encodeRow (recordFields r)) := by
  induction recs generalizing lines with
  | nil => simp [saveAll]
  | cons r recs ih =>
    show saveAll (save lines r) recs = _
    rw [ih, save]
    simp

theorem filter_map_rowToRecord (rows : List (List String)) (a : String) :
    (rows.filter (fun row => row.getD 1 "" = a)).map rowToRecord
      = (rows.map rowToRecord).filter (fun rec => rec.ip = a) := by
  induction rows with
  | nil => rfl
  | cons row rows ih =>
    have hpq : (decide ((rowToRecord row).ip = a)) = (decide (row.getD 1 "" = a)) := rfl
    simp only [List.filter_cons, List.map_cons, hpq]
    cases hx : decide (row.getD 1 "" = a) with
    | true => rw [if_pos rfl, if_pos rfl, List.map_cons, ih]
    | false => rw [if_neg (by decide), if_neg (by decide), ih]

theorem run_ok_isNew (data : RawData) (now comment : String) (lines : List String)
    (openErr : Option String) :
    (IPInfoService.run (Except.ok data) now comment lines openErr).isNew = true ↔
      ∀ rec ∈ recordsOf (some lines) openErr,
        rec.ip ≠ (IPDataFormatter.format data now comment).ip := by
  have hrw : (IPInfoService.run (Except.ok data) now comment lines openErr).isNew
      = !(decide ((IPDataFormatter.format data now comment).ip ∈
          ((read_all_rows (some lines) openErr).1.map (fun row => row.getD 1 "")))) := rfl
  rw [hrw, Bool.not_eq_true', decide_eq_false_iff_not, recordsOf]
  constructor
  · intro hnm rec hrec he
    rw [List.mem_map] at hrec
    obtain ⟨row, hrow, rfl⟩ := hrec
    exact hnm (List.mem_map.mpr ⟨row, hrow, he⟩)
  · intro hall hmem
    rw [List.mem_map] at hmem
    obtain ⟨row, hrow, he⟩ := hmem
    exact hall (rowToRecord row) (List.mem_map.mpr ⟨row, hrow, rfl⟩) he

theorem main_run_fst (fetch : Except FetchError RawData) (now comment : String)
    (file : Option (List String)) (openErr : Option String) :
    (main_run fetch now comment file openErr).1 =
      exitCode (IPInfoService.run fetch now comment (ensure_file_exists file) openErr).isNew :=
  rfl

theorem exitCode_eq_zero (b : Bool) : exitCode b = 0 ↔ b = true := by
  cases b <;> simp [exitCode]

theorem exitCode_eq_one (b : Bool) : exitCode b = 1 ↔ b = false := by
  cases b <;> simp [exitCode]

/-! ## Claims -/

/-- C1: for every history (the records read from the log) and every address,
the novelty check of `IPInfoService.run` reports new iff no historical
record has that ip, and `find_records_by_ip` returns exactly the historical
records with that ip, in history order (filtering preserves relative
order). -/
theorem novelty_check_correct (data : RawData) (now comment : String)
    (lines : List String) (openErr : Option String) (a : String) :
    ((IPInfoService.run (Except.ok data) now comment lines openErr).isNew = true ↔
      ∀ rec ∈ recordsOf (some lines) openErr,
        rec.ip ≠ (IPDataFormatter.format data now comment).ip) ∧
    find_records_by_ip (some lines) openErr a =
      (recordsOf (some lines) openErr).filter (fun rec => rec.ip = a) := by
  refine ⟨run_ok_isNew data now comment lines openErr, ?_⟩
  show ((read_all_rows (some lines) openErr).1.filter
      (fun row => row.getD 1 "" = a)).map rowToRecord = _
  rw [filter_map_rowToRecord, recordsOf]

/-- C2, counterexample: a run with no flags and an empty comment (the
default CLI invocation) still appends the fetched record to the history
file — `IPInfoService.run` calls `storage.save` unconditionally. -/
theorem run_persists_without_comment :
    (IPInfoService.run (Except.ok ⟨some "1.2.3.4", some "ACME"⟩)
        "2024-01-01 00:00:00" "" [headerLine] none).file
      = [headerLine, "2024-01-01 00:00:00\t1.2.3.4\tACME\tN/A"] ∧
    (IPInfoService.run (Except.ok ⟨some "1.2.3.4", some "ACME"⟩)
        "2024-01-01 00:00:00" "" [headerLine] none).file ≠ [headerLine] := by
  decide

/-- C2, amended: the record is appended on every successful run, regardless
of comment (there is no save flag in `ipwatch.py`); only a failed fetch
leaves the history file unchanged. -/
theorem run_always_saves (fetch : Except FetchError RawData) (now comment : String)
    (lines : List String) (openErr : Option String) :
    (IPInfoService.run fetch now comment lines openErr).file =
      (match fetch with
       | Except.ok data => save lines (IPDataFormatter.format data now comment)
       | Except.error _ => lines) := by
  cases fetch <;> rfl

/-- C3: the exit status is 0 iff the fetch succeeded and no prior history
record carries the fetched ip; it is 1 otherwise (address already present,
or any error during the run). -/
theorem exit_code_correct (fetch : Except FetchError RawData) (now comment : String)
    (file : Option (List String)) (openErr : Option String) :
    ((main_run fetch now comment file openErr).1 = 0 ↔
      ∃ data, fetch = Except.ok data ∧
        ∀ rec ∈ recordsOf (some (ensure_file_exists file)) openErr,
          rec.ip ≠ (IPDataFormatter.format data now comment).ip) ∧
    ((main_run fetch now comment file openErr).1 = 1 ↔
      ¬ ∃ data, fetch = Except.ok data ∧
        ∀ rec ∈ recordsOf (some (ensure_file_exists file)) openErr,
          rec.ip ≠ (IPDataFormatter.format data now comment).ip) := by
  constructor
  · rw [main_run_fst, exitCode_eq_zero]
    cases fetch with
    | error e =>
      constructor
      · intro h; exact Bool.noConfusion h
      · rintro ⟨d, hd, -⟩; exact Except.noConfusion hd
    | ok data =>
      rw [run_ok_isNew]
      constructor
      · intro hp; exact ⟨data, rfl, hp⟩
      · rintro ⟨d, hd, hp⟩
        obtain rfl : data = d := by injection hd
        exact hp
  · rw [main_run_fst, exitCode_eq_one]
    cases fetch with
    | error e =>
      constructor
      · rintro - ⟨d, hd, -⟩; exact Except.noConfusion hd
      · intro _; rfl
    | ok data =>
      rw [Bool.eq_false_iff, ne_eq, run_ok_isNew]
      constructor
      · intro hnp h
        obtain ⟨d, hd, hp⟩ := h
        obtain rfl : data = d := by injection hd
        exact hnp hp
      · intro hne hp
        exact hne ⟨data, rfl, hp⟩

/-- C4: on a `NetworkError` or `ParseError` from the fetch step, the run
prints exactly the corresponding diagnostic to the error stream, leaves the
history file unchanged, displays nothing, and exits with status 1; the
exception is caught inside `run` (the model is a total function, so no
failure escapes). -/
theorem fetch_failure_safe (e : FetchError) (now comment : String) (lines : List String)
    (openErr : Option String) (h : FetchError.isNetworkOrParse e = true) :
    (IPInfoService.run (Except.error e) now comment lines openErr).file = lines ∧
    (IPInfoService.run (Except.error e) now comment lines openErr).displayed = none ∧
    (IPInfoService.run (Except.error e) now comment lines openErr).errMsgs
      = [errorMessage e] ∧
    exitCode (IPInfoService.run (Except.error e) now comment lines openErr).isNew = 1 :=
  ⟨rfl, rfl, rfl, rfl⟩

/-- Witness for C4 at a concrete network timeout. -/
theorem fetch_failure_safe_witness :
    (IPInfoService.run (Except.error (FetchError.network "timeout"))
        "2024-01-01 00:00:00" "" [headerLine] none).file = [headerLine] ∧
    (IPInfoService.run (Except.error (FetchError.network "timeout"))
        "2024-01-01 00:00:00" "" [headerLine] none).displayed = none ∧
    (IPInfoService.run (Except.error (FetchError.network "timeout"))
        "2024-01-01 00:00:00" "" [headerLine] none).errMsgs
      = [errorMessage (FetchError.network "timeout")] ∧
    exitCode (IPInfoService.run (Except.error (FetchError.network "timeout"))
        "2024-01-01 00:00:00" "" [headerLine] none).isNew = 1 :=
  fetch_failure_safe (FetchError.network "timeout") "2024-01-01 00:00:00" ""
    [headerLine] none rfl

/-- C5, counterexample: when the log file does not exist, `read_all_rows`
returns an empty sequence but logs no diagnostic — the `os.path.exists`
check returns `[]` before the try block whose handler prints
`Error reading file`, so the claimed diagnostic is absent. -/
theorem read_missing_file_counterexample :
    read_all_rows none none = ([], []) ∧ (read_all_rows none none).2 = [] :=
  ⟨rfl, rfl⟩

/-- C5, amended: reading the history never raises: a malformed row (fewer
than four parsed fields) anywhere in the file is skipped while every other
row, before or after it, is still parsed; a missing file yields an empty
result silently, with no diagnostic; a file that exists but cannot be
opened yields an empty result plus the diagnostic. -/
theorem read_degrades_gracefully (header bad : String) (pre post lines : List String)
    (e : String) (oe : Option String) (hbad : (parseRow bad).length < 4) :
    read_all_rows (some (header :: (pre ++ bad :: post))) none
      = read_all_rows (some (header :: (pre ++ post))) none ∧
    read_all_rows none oe = ([], []) ∧
    read_all_rows (some lines) (some e) = ([], ["Error reading file: " ++ e]) := by
  refine ⟨?_, rfl, rfl⟩
  have h2 : read_all_rows (some (header :: (pre ++ bad :: post))) none
      = (((pre ++ bad :: post).map parseRow).filter (fun row => 4 ≤ row.length), []) := rfl
  have h3 : read_all_rows (some (header :: (pre ++ post))) none
      = (((pre ++ post).map parseRow).filter (fun row => 4 ≤ row.length), []) := rfl
  rw [h2, h3, List.map_append, List.map_append, List.map_cons, List.filter_append,
    List.filter_append, List.filter_cons,
    if_neg (by simp only [decide_eq_true_eq]; omega)]

/-- Witness for C5: a two-field row between two well-formed rows is dropped,
a missing file reads as empty, an unopenable file reads as empty with a
diagnostic. -/
theorem read_degrades_gracefully_witness :
    read_all_rows (some ["Timestamp\tIP Address\tISP\tComment",
        "2024-01-01 00:00:00\t1.2.3.4\tACME\tN/A", "oops\trow",
        "2024-01-02 00:00:00\t5.6.7.8\tZeta\tN/A"]) none
      = read_all_rows (some ["Timestamp\tIP Address\tISP\tComment",
        "2024-01-01 00:00:00\t1.2.3.4\tACME\tN/A",
        "2024-01-02 00:00:00\t5.6.7.8\tZeta\tN/A"]) none ∧
    read_all_rows none none = ([], []) ∧
    read_all_rows (some ["Timestamp\tIP Address\tISP\tComment"]) (some "Permission denied")
      = ([], ["Error reading file: " ++ "Permission denied"]) :=
  read_degrades_gracefully "Timestamp\tIP Address\tISP\tComment" "oops\trow"
    ["2024-01-01 00:00:00\t1.2.3.4\tACME\tN/A"]
    ["2024-01-02 00:00:00\t5.6.7.8\tZeta\tN/A"]
    ["Timestamp\tIP Address\tISP\tComment"] "Permission denied" none (by decide)

/-- A field with no literal tab and no literal newline, the restriction the
format specification places on callers. -/
def noTabNewline (s : String) : Bool :=
  s.data.all (fun c => !(c = '\t') && !(c = '\n'))

theorem records_of_encoded (recs : List IPRecord) :
    ((((recs.map (fun x => encodeRow (recordFields x))).map parseRow).filter
      (fun row => 4 ≤ row.length)).map rowToRecord) = recs := by
  induction recs with
  | nil => rfl
  | cons x recs ih =>
    simp only [List.map_cons, parseRow_recordFields]
    rw [List.filter_cons,
      if_pos (show (decide (4 ≤ (recordFields x).length)) = true from rfl),
      List.map_cons, rowToRecord_recordFields, ih]

/-- C6: round trip over the log.  Starting from a freshly created log (just
the header), appending any sequence of records whose fields contain no tab
or newline and reading all rows back yields exactly those records, in order,
with identical fields; and appending one record to any non-empty log leaves
every previously read row unchanged, in place, merely adding the new row at
the end. -/
theorem log_roundtrip (recs : List IPRecord) (lines : List String) (r : IPRecord)
    (hgood : ∀ x ∈ recs, ∀ f ∈ recordFields x, noTabNewline f = true)
    (hne : lines ≠ []) :
    recordsOf (some (saveAll (ensure_file_exists none) recs)) none = recs ∧
    (read_all_rows (some (save lines r)) none).1
      = (read_all_rows (some lines) none).1 ++ [recordFields r] := by
  constructor
  · rw [saveAll_eq]
    exact records_of_encoded recs
  · obtain ⟨l, ls, rfl⟩ : ∃ l ls, lines = l :: ls := by
      cases lines with
      | nil => exact absurd rfl hne
      | cons l ls => exact ⟨l, ls, rfl⟩
    show ((ls ++ [encodeRow (recordFields r)]).map parseRow).filter (fun row => 4 ≤ row.length)
        = (ls.map parseRow).filter (fun row => 4 ≤ row.length) ++ [recordFields r]
    rw [List.map_append, List.filter_append, List.map_cons, List.map_nil,
      parseRow_recordFields, List.filter_cons,
      if_pos (show (decide (4 ≤ (recordFields r).length)) = true from rfl),
      List.filter_nil]

/-- Witness for C6: one record round-trips through a fresh log, and
appending it to a header-only log adds exactly its row. -/
theorem log_roundtrip_witness :
    recordsOf (some (saveAll (ensure_file_exists none)
        [⟨"2024-01-01 00:00:00", "1.2.3.4", "ACME", "N/A"⟩])) none
      = [⟨"2024-01-01 00:00:00", "1.2.3.4", "ACME", "N/A"⟩] ∧
    (read_all_rows (some (save [headerLine]
        ⟨"2024-01-01 00:00:00", "1.2.3.4", "ACME", "N/A"⟩)) none).1
      = (read_all_rows (some [headerLine]) none).1
        ++ [recordFields ⟨"2024-01-01 00:00:00", "1.2.3.4", "ACME", "N/A"⟩] :=
  log_roundtrip [⟨"2024-01-01 00:00:00", "1.2.3.4", "ACME", "N/A"⟩] [headerLine]
    ⟨"2024-01-01 00:00:00", "1.2.3.4", "ACME", "N/A"⟩ (by decide) (by decide)

/-- C7, counterexample: when the provider returns an empty string under the
`query` key, the constructed record's `ip` field is the empty string, so not
all four fields of the constructed record are non-empty — `data.get("query",
"N/A")` substitutes only for a missing key, not for an empty value. -/
theorem format_empty_ip_counterexample :
    (IPDataFormatter.format ⟨some "", some "ACME"⟩ "2024-01-01 00:00:00" "home").ip = "" ∧
    ¬ ∀ f ∈ recordFields (IPDataFormatter.format ⟨some "", some "ACME"⟩
        "2024-01-01 00:00:00" "home"), f ≠ "" := by
  decide

/-- C7, amended: an absent or empty comment normalizes to "N/A" (and the
comment field is never empty); a missing `query` or `isp` key maps to
"N/A"; and all four fields are non-empty provided the timestamp is
non-empty and the provider did not supply an empty-string value for a
present key. -/
theorem format_normalizes (d : RawData) (now c : String) :
    (IPDataFormatter.format d now "").comment = "N/A" ∧
    (IPDataFormatter.format d now c).comment ≠ "" ∧
    (d.query = none → (IPDataFormatter.format d now c).ip = "N/A") ∧
    (d.isp = none → (IPDataFormatter.format d now c).isp = "N/A") ∧
    (now ≠ "" → d.query ≠ some "" → d.isp ≠ some "" →
      ∀ f ∈ recordFields (IPDataFormatter.format d now c), f ≠ "") := by
  have hcm : (IPDataFormatter.format d now c).comment = if c = "" then "N/A" else c := rfl
  have hip : (IPDataFormatter.format d now c).ip = d.query.getD "N/A" := rfl
  have hisp : (IPDataFormatter.format d now c).isp = d.isp.getD "N/A" := rfl
  have hcomment : (IPDataFormatter.format d now c).comment ≠ "" := by
    rw [hcm]
    by_cases hc : c = ""
    · rw [if_pos hc]; decide
    · rw [if_neg hc]; exact hc
  refine ⟨rfl, hcomment, ?_, ?_, ?_⟩
  · intro hq; rw [hip, hq]; rfl
  · intro hi; rw [hisp, hi]; rfl
  · intro hn hq hi f hf
    simp only [recordFields, List.mem_cons, List.mem_singleton] at hf
    rcases hf with rfl | rfl | rfl | rfl | hnil
    · exact hn
    · rw [hip]
      cases hdq : d.query with
      | none => decide
      | some s =>
        intro he
        have he2 : s = "" := he
        exact hq (hdq.trans (by rw [he2]))
    · rw [hisp]
      cases hdi : d.isp with
      | none => decide
      | some s =>
        intro he
        have he2 : s = "" := he
        exact hi (hdi.trans (by rw [he2]))
    · exact hcomment
    · exact absurd hnil (List.not_mem_nil f)

/-- Witness for C7 at concrete inputs: one with both keys present and
non-empty, one with both keys absent. -/
theorem format_normalizes_witness :
    (IPDataFormatter.format ⟨some "1.2.3.4", some "ACME"⟩
        "2024-01-01 00:00:00" "").comment = "N/A" ∧
    (IPDataFormatter.format ⟨none, none⟩ "2024-01-01 00:00:00" "home").ip = "N/A" ∧
    (IPDataFormatter.format ⟨none, none⟩ "2024-01-01 00:00:00" "home").isp = "N/A" ∧
    ∀ f ∈ recordFields (IPDataFormatter.format ⟨some "1.2.3.4", some "ACME"⟩
        "2024-01-01 00:00:00" "home"), f ≠ "" := by
  have h1 := format_normalizes ⟨some "1.2.3.4", some "ACME"⟩ "2024-01-01 00:00:00" "home"
  have h2 := format_normalizes ⟨none, none⟩ "2024-01-01 00:00:00" "home"
  exact ⟨h1.1, h2.2.2.1 rfl, h2.2.2.2.1 rfl,
    h1.2.2.2.2 (by decide) (by decide) (by decide)⟩

/-- C8, counterexample: on a host where neither a registered Documents
directory nor `home/Documents` exists, the code still returns
`home/Documents` — it never probes for existence and never produces the
dotted per-user fallback directory the claim describes. -/
theorem resolve_path_counterexample :
    get_documents_path "Linux" none "/home/user" = "/home/user/Documents" ∧
    resolve_path_spec none (fun _ => false) "/home/user" = "/home/user/.ipwatch" ∧
    get_documents_path "Linux" none "/home/user"
      ≠ resolve_path_spec none (fun _ => false) "/home/user" := by
  decide

/-- C8, amended: path resolution performs no existence checks and has no
third fallback stage: the result is always `home/Documents`, except on
Windows with a successful registry lookup, where it is the registered
directory. -/
theorem resolve_path_amended (system : String) (registry : Option String) (home : String) :
    get_documents_path system registry home = joinPath home "Documents" ∨
    (system = "Windows" ∧ registry = some (get_documents_path system registry home)) := by
  by_cases hs : system = "Windows"
  · cases hr : registry with
    | none => left; simp [get_documents_path, hs, hr]
    | some d => right; exact ⟨hs, by simp [get_documents_path, hs, hr]⟩
  · left; simp [get_documents_path, hs]

/-- C9, counterexample: the repository has a second `_ensure_file_exists`
(in `app.py`, cited by the claim) whose header is the three-column
`Timestamp\tISP\tIP Address`, not the claimed
`Timestamp\tIP Address\tISP\tComment`. -/
theorem ensure_header_counterexample :
    IPWatchApp.ensure_file_exists none = ["Timestamp\tISP\tIP Address"] ∧
    IPWatchApp.ensure_file_exists none ≠ ["Timestamp\tIP Address\tISP\tComment"] := by
  decide

/-- C9, amended: both `_ensure_file_exists` implementations are idempotent
and leave an existing file untouched; the absent-file header is exactly
`Timestamp\tIP Address\tISP\tComment` for `ipwatch.py` but
`Timestamp\tISP\tIP Address` for the `app.py` variant. -/
theorem ensure_header_amended :
    ensure_file_exists none = ["Timestamp\tIP Address\tISP\tComment"] ∧
    IPWatchApp.ensure_file_exists none = ["Timestamp\tISP\tIP Address"] ∧
    (∀ ls, ensure_file_exists (some ls) = ls) ∧
    (∀ ls, IPWatchApp.ensure_file_exists (some ls) = ls) ∧
    (∀ file, ensure_file_exists (some (ensure_file_exists file)) = ensure_file_exists file) ∧
    (∀ file, IPWatchApp.ensure_file_exists (some (IPWatchApp.ensure_file_exists file))
      = IPWatchApp.ensure_file_exists file) :=
  ⟨by decide, by decide, fun _ => rfl, fun _ => rfl, fun _ => rfl, fun _ => rfl⟩

/-- C10: a row with more than four tab-separated plain columns passes the
`len(row) >= 4` check, and the record built from it by
`find_records_by_ip` keeps only the first four columns, dropping the
extras. -/
theorem extra_columns_tolerated (fs : List String) (header : String)
    (hlen : 4 < fs.length)
    (hok : ∀ f ∈ fs, ∀ c ∈ f.data, c ≠ '\t' ∧ c ≠ '"') :
    (read_all_rows (some [header, rawRow fs]) none).1 = [fs] ∧
    find_records_by_ip (some [header, rawRow fs]) none (fs.getD 1 "")
      = [⟨fs.getD 0 "", fs.getD 1 "", fs.getD 2 "", fs.getD 3 ""⟩] := by
  have hparse : parseRow (rawRow fs) = fs := parseRow_rawRow fs (by omega) hok
  have h1 : (read_all_rows (some [header, rawRow fs]) none).1 = [fs] := by
    show ([rawRow fs].map parseRow).filter (fun row => 4 ≤ row.length) = [fs]
    rw [List.map_cons, List.map_nil, hparse, List.filter_cons,
      if_pos (decide_eq_true (by omega : 4 ≤ fs.length)), List.filter_nil]
  refine ⟨h1, ?_⟩
  show ((read_all_rows (some [header, rawRow fs]) none).1.filter
      (fun row => row.getD 1 "" = fs.getD 1 "")).map rowToRecord = _
  rw [h1, List.filter_cons, if_pos (decide_eq_true rfl), List.filter_nil,
    List.map_cons, List.map_nil]
  rfl

/-- Witness for C10: a five-column row is read whole, and the record built
from it drops the fifth column. -/
theorem extra_columns_tolerated_witness :
    (read_all_rows (some [headerLine,
        rawRow ["2024-01-01 00:00:00", "1.2.3.4", "ACME", "N/A", "extra"]]) none).1
      = [["2024-01-01 00:00:00", "1.2.3.4", "ACME", "N/A", "extra"]] ∧
    find_records_by_ip (some [headerLine,
        rawRow ["2024-01-01 00:00:00", "1.2.3.4", "ACME", "N/A", "extra"]]) none "1.2.3.4"
      = [⟨"2024-01-01 00:00:00", "1.2.3.4", "ACME", "N/A"⟩] :=
  extra_columns_tolerated ["2024-01-01 00:00:00", "1.2.3.4", "ACME", "N/A", "extra"]
    headerLine (by decide) (by decide)

end IPWatch
